import Mathlib

/-!
Verification of the brie launcher's provisioning core.

The definitions below are a shallow embedding of the Rust sources:
 - `crates/brie/src/main.rs` (prefix-name sanitization),
 - `crates/brie_wine/src/dll.rs` and `crates/brie_lib/src/dll.rs`
   (DLL override ledger reconciliation),
 - `crates/brie_wine/src/library.rs` (library cache: `ensure_library_exists`,
   `download_library`, `DirGuard`, single-root flattening),
 - `crates/rutris_lib/src/prepare.rs` (winetricks ledger, drive mounts).

Strings are modelled over `List Char` with structural recursion so that every
definition evaluates inside the kernel.
-/

/-- `String.split_whitespace` / `str::lines` style helper: split a char list at
every character satisfying `sep`, keeping empty segments. -/
def splitCharList (sep : Char → Bool) : List Char → List Char → List (List Char)
  | [], acc => [acc.reverse]
  | c :: rest, acc =>
    if sep c then acc.reverse :: splitCharList sep rest []
    else splitCharList sep rest (c :: acc)

/-- Rust `str::lines`: split on `'\n'`; a trailing newline does not produce a
final empty line, and the empty string has no lines. -/
def rustLines (s : String) : List String :=
  let parts := splitCharList (fun c => c = '\n') s.data []
  let parts := if parts.getLast? = some [] then parts.dropLast else parts
  parts.map String.mk

/-- Rust `str::split_whitespace`: split on whitespace, dropping empty tokens. -/
def rustSplitWhitespace (s : String) : List String :=
  ((splitCharList (fun c => c.isWhitespace) s.data []).filter (· ≠ [])).map String.mk

/-- Boolean list-prefix test (Rust `str::starts_with` over chars). -/
def isPrefixOfB : List Char → List Char → Bool
  | [], _ => true
  | _ :: _, [] => false
  | a :: as, b :: bs => a = b && isPrefixOfB as bs

/-- Rust `str::contains` (substring containment) over chars. -/
def containsSub (pat : List Char) : List Char → Bool
  | [] => isPrefixOfB pat []
  | c :: rest => isPrefixOfB pat (c :: rest) || containsSub pat rest

/-- Rust `s.strip_suffix(sfx).unwrap_or(s)`: drop `sfx` when it is a suffix,
otherwise return the string unchanged. -/
def rustStripSuffix (s sfx : String) : String :=
  if isPrefixOfB sfx.data.reverse s.data.reverse then
    String.mk (s.data.take (s.data.length - sfx.data.length))
  else s

/-- Byte-lexicographic `<` on strings (the `Ord` a Rust `BTreeSet<&str>`
iterates by), over chars. -/
def charListLt : List Char → List Char → Bool
  | [], [] => false
  | [], _ :: _ => true
  | _ :: _, [] => false
  | a :: as, b :: bs => if a < b then true else if b < a then false else charListLt as bs

/-- Insert a string into an ascending sorted list unless already present
(`BTreeSet::insert` followed by sorted iteration). -/
def insortSet (s : String) : List String → List String
  | [] => [s]
  | x :: xs =>
    if s = x then x :: xs
    else if charListLt s.data x.data then s :: x :: xs
    else x :: insortSet s xs

/-- Writing `w` into an existing file opened with `write(true).create(true)`
(no `append`, no `truncate`): bytes are written at offset 0 and the old
content beyond `w`'s length survives. -/
def overwriteFrom0 (old w : String) : String :=
  w ++ String.mk (old.data.drop w.data.length)

/-- `writeln!(file, "{x}")` for each element in order. -/
def writtenLines (l : List String) : String :=
  String.join (l.map (fun s => s ++ "\n"))

/-! ## Prefix-name sanitization (`crates/brie/src/main.rs`) -/

/-- The `ILLEGAL` character set of `sanitize_directory_name`. -/
def illegalChars : List Char := ['/', '\\', ':', '*', '?', '"', '<', '>', '|']

/-- `sanitize_directory_name`: keep exactly the characters outside `ILLEGAL`. -/
def sanitizeDirectoryName (dirName : String) : String :=
  String.mk (dirName.data.filter (fun c => !(illegalChars.contains c)))

/-- The launch-time computation of the directory name under `prefixes/`:
`unit.prefix.unwrap_or_else(|| sanitize_directory_name(&unit.common.name.unwrap_or(name)))`. -/
def computedPrefixName (explicit : Option String) (humanName : Option String)
    (key : String) : String :=
  match explicit with
  | some p => p
  | none => sanitizeDirectoryName (humanName.getD key)

/-! ## DLL overrides (`crates/brie_wine/src/dll.rs`, `crates/brie_lib/src/dll.rs`) -/

/-- `Arch` from `dll.rs` (identical in both crates). -/
inductive Arch where
  | X86
  | X64
deriving DecidableEq, Repr

/-- `Display for Arch`. -/
def Arch.toStr : Arch → String
  | .X86 => "X86"
  | .X64 => "X64"

/-- `FromStr for Arch` (`Option` for the `Result<_, ()>`). -/
def archFromStr (s : String) : Option Arch :=
  if s = "X86" then some Arch.X86
  else if s = "X64" then some Arch.X64
  else none

/-- `brie_cfg::Library` (the five installable DLL bundles). -/
inductive Library where
  | Dxvk
  | DxvkGplAsync
  | DxvkNvapi
  | NvidiaLibs
  | Vkd3dProton
deriving DecidableEq, Repr

/-- The fixed `(arch, dll file list)` matrix of
`Runner::install_library_dlls` in `brie_wine/src/dll.rs`, in install order. -/
def libraryDlls : Library → List (Arch × List String)
  | .Dxvk | .DxvkGplAsync =>
    [(.X64, ["d3d9.dll", "d3d10core.dll", "d3d11.dll", "dxgi.dll"]),
     (.X86, ["d3d9.dll", "d3d10core.dll", "d3d11.dll", "dxgi.dll"])]
  | .DxvkNvapi => [(.X64, ["nvapi64.dll"]), (.X86, ["nvapi.dll"])]
  | .Vkd3dProton =>
    [(.X64, ["d3d12.dll", "d3d12core.dll"]), (.X86, ["d3d12.dll", "d3d12core.dll"])]
  | .NvidiaLibs => [(.X64, ["nvcuda.dll.so", "nvoptix.dll.so"]), (.X86, ["nvcuda.dll.so"])]

/-- The registry-key stem of a dll file name in `brie_wine`'s `install_dlls`:
`strip_suffix(".so")` then `strip_suffix(".dll")`, each kept only on success. -/
def dllStem (dll : String) : String :=
  rustStripSuffix (rustStripSuffix dll ".so") ".dll"

/-- `brie_wine`'s `Overrides`: `all` are the lines read from `.overrides`
taken verbatim (stem-only format), `new` is the `BTreeSet` of stems added in
this run, kept in its sorted iteration order. -/
structure OverridesW where
  all : List String
  new : List String
deriving Repr

/-- `Overrides::new` in `brie_wine/src/dll.rs`: collect the raw lines. -/
def OverridesW.ofFile (existing : String) : OverridesW :=
  { all := rustLines existing, new := [] }

/-- `Overrides::insert` in `brie_wine/src/dll.rs`. -/
def OverridesW.insert (o : OverridesW) (dll : String) : OverridesW :=
  if o.all.contains dll then o
  else { all := dll :: o.all, new := insortSet dll o.new }

/-- The override bookkeeping of `brie_wine`'s `install_dlls` over one run:
fold every dll of every requested library, in order, into the ledger.
(The `copy_dll` filesystem writes and the nvngx probe do not touch the
ledger and are not modelled.) -/
def installStemsW (o : OverridesW) (libs : List Library) : OverridesW :=
  libs.foldl
    (fun o lib =>
      (libraryDlls lib).foldl
        (fun o p => p.2.foldl (fun o dll => o.insert (dllStem dll)) o) o)
    o

/-- Result of one `Runner::install_libraries` run in `brie_wine/src/dll.rs`:
whether `wine regedit` was invoked, and the content of `.overrides` after. -/
structure InstallResult where
  regInvoked : Bool
  file : String
deriving Repr

/-- `Runner::install_libraries` (`brie_wine/src/dll.rs`): read `.overrides`,
reconcile, and when `new` is non-empty apply the registry edit and write the
`new` stems back through a `write(true).create(true)` handle — i.e. starting
at offset 0 of the existing file, without truncation. -/
def installLibraries (fileContent : String) (libs : List Library) : InstallResult :=
  let o := installStemsW (OverridesW.ofFile fileContent) libs
  if o.new.isEmpty then { regInvoked := false, file := fileContent }
  else { regInvoked := true, file := overwriteFrom0 fileContent (writtenLines o.new) }

/-- One line of `.overrides` as parsed by `Overrides::new` in
`brie_lib/src/dll.rs`: the first two whitespace tokens, the first of which
must parse as an `Arch`; anything else is dropped. -/
def parseOverrideLine (line : String) : Option (Arch × String) :=
  match rustSplitWhitespace line with
  | arch :: dll :: _ => (archFromStr arch).map (fun a => (a, dll))
  | _ => none

/-- `Overrides::new` in `brie_lib/src/dll.rs`: the parsed `(arch, stem)` set. -/
def overridesLOfFile (existing : String) : List (Arch × String) :=
  (rustLines existing).filterMap parseOverrideLine

/-- `Overrides::contains` in `brie_lib/src/dll.rs`. -/
def overridesLContains (all : List (Arch × String)) (arch : Arch) (dll : String) : Bool :=
  all.contains (arch, dll)

/-! ## Winetricks ledger (`crates/rutris_lib/src/prepare.rs`) -/

/-- Result of one `CommandRunner::winetricks` run: the verbs actually run
with `winetricks -q`, and the content of `.winetricks` after. -/
structure WinetricksResult where
  ran : List String
  file : String
deriving Repr

/-- `CommandRunner::winetricks` on a run where every `winetricks -q <verb>`
invocation succeeds: run exactly the requested verbs not present among the
file's lines, then write them back through a `write(true).create(true)`
handle (offset 0, no truncation). -/
def winetricksRun (fileContent : String) (packages : List String) : WinetricksResult :=
  let installed := rustLines fileContent
  let newPkgs := packages.filter (fun p => !(installed.contains p))
  { ran := newPkgs, file := overwriteFrom0 fileContent (writtenLines newPkgs) }

/-! ## Library cache (`crates/brie_wine/src/library.rs`) -/

/-- A directory entry as observed by `fs::read_dir`: its name, whether it is
a directory, and (one level of) its children. -/
inductive Entry where
  | mk (name : String) (isDir : Bool) (children : List Entry)

/-- Name of an entry. -/
def Entry.name : Entry → String
  | .mk n _ _ => n

/-- Whether the entry is a directory. -/
def Entry.isDir : Entry → Bool
  | .mk _ d _ => d

/-- Children of the entry. -/
def Entry.children : Entry → List Entry
  | .mk _ _ c => c

/-- `contains_single_directory_with_substring`: error on an empty directory;
`none` when the first entry is not a directory, or when its name misses the
substring, or when a second entry exists; otherwise the single wrapper. -/
def containsSingleDirectoryWithSubstring (entries : List Entry) (substring : String) :
    Except Unit (Option Entry) :=
  match entries with
  | [] => .error ()
  | e :: rest =>
    if e.isDir = false then .ok none
    else if containsSub substring.data e.name.data && rest.isEmpty then .ok (some e)
    else .ok none

/-- `move_paths_to_parent_directory` at the listing level: rename the target
to a fresh `uuid` temp name, move each of its children up beside it, then the
temp `DirGuard` (whose success flag is never set) removes the emptied temp
directory on drop. -/
def movePathsToParentDirectory (entries : List Entry) (target : Entry) (uuid : String) :
    List Entry :=
  let afterTempRename :=
    entries.filter (fun e => e.name ≠ target.name) ++ [Entry.mk uuid target.isDir target.children]
  let afterMoves := afterTempRename ++ target.children
  afterMoves.filter (fun e => e.name ≠ uuid)

/-- The flatten step of `download_library`: run the single-wrapper check and,
when it produces a wrapper, move its children up. -/
def flattenStep (entries : List Entry) (substring uuid : String) :
    Except Unit (List Entry) :=
  match containsSingleDirectoryWithSubstring entries substring with
  | .error e => .error e
  | .ok none => .ok entries
  | .ok (some w) => .ok (movePathsToParentDirectory entries w uuid)

/-- `ReleaseVersion` from `brie_cfg`. -/
inductive ReleaseVersion where
  | Latest
  | Tag (tag : String)
deriving DecidableEq, Repr

/-- `ReleaseVersion::to_str`: the on-disk version key. -/
def ReleaseVersion.toStr : ReleaseVersion → String
  | .Latest => "latest"
  | .Tag t => t

/-- The environment a `download_library` call runs against: the outcome of
fetch + decompress + untar into the fresh directory (its resulting listing,
or a failure), the flatten inputs, and whether the `latest` symlink step
succeeds. -/
structure DownloadEnv where
  downloadResult : Except Unit (List Entry)
  substring : String
  uuid : String
  version : ReleaseVersion
  symlinkOk : Bool

/-- Outcome of `download_library`: the returned `Result`, and the state of
`libraries/<name>/<release.version>` when it returns (`none` = the DirGuard
removed it). -/
structure DownloadOutcome where
  result : Except Unit Unit
  dest : Option (List Entry)

/-- `download_library` (`brie_wine/src/library.rs`): create the destination,
arm a `DirGuard`, download/unpack, flatten, create the `latest` symlink for
`Latest`, and only then set the guard's success flag. Every early `?` return
drops the guard unarmed, which `remove_dir_all`s the destination. -/
def downloadLibrary (env : DownloadEnv) : DownloadOutcome :=
  match env.downloadResult with
  | .error e => { result := .error e, dest := none }
  | .ok listing =>
    match flattenStep listing env.substring env.uuid with
    | .error e => { result := .error e, dest := none }
    | .ok flattened =>
      match env.version with
      | .Latest =>
        if env.symlinkOk then { result := .ok (), dest := some flattened }
        else { result := .error (), dest := none }
      | .Tag _ => { result := .ok (), dest := some flattened }

/-- `downloader::Release` (only the resolved version matters here). -/
structure Release where
  version : String
deriving DecidableEq, Repr

/-- `library::State`. -/
structure State where
  path : String
  updated : Bool
deriving DecidableEq, Repr

/-- The environment an `ensure_library_exists` call runs against: whether
`versionDir` already exists, the requested version, the seconds since the
last freshness check, the provider (`get_meta`) outcome, the target read off
the `latest` symlink, and whether a fresh `download_library` would succeed. -/
structure EnsureEnv where
  dirExists : Bool
  version : ReleaseVersion
  timeSince : Option Nat
  meta : Except Unit Release
  readLink : Except Unit String
  downloadOk : Bool

/-- `time_since_update.is_none_or(|d| d > Duration::from_secs(86400))`. -/
def staleB (timeSince : Option Nat) : Bool :=
  match timeSince with
  | none => true
  | some d => decide (86400 < d)

/-- `ensure_library_exists` (`brie_wine/src/library.rs`). Returns whether the
release provider was contacted, and the call's `Result`; the returned path is
always `version_dir` (modelled by its final component, the version key). -/
def ensureLibraryExists (env : EnsureEnv) : Bool × Except Unit State :=
  let versionDir := env.version.toStr
  if env.dirExists then
    if env.version = .Latest && staleB env.timeSince then
      match env.meta with
      | .error _ =>
        -- provider failure: logged, cached entry returned as `State::untouched`
        (true, .ok { path := versionDir, updated := false })
      | .ok release =>
        match env.readLink with
        | .error e => (true, .error e)
        | .ok linkTarget =>
          if linkTarget = release.version then
            (true, .ok { path := versionDir, updated := true })
          else
            -- `download_library` runs here; its failure is only logged and the
            -- control falls through to `Ok(State::new(version_dir, true))`
            (true, .ok { path := versionDir, updated := true })
    else (false, .ok { path := versionDir, updated := true })
  else
    match env.meta with
    | .error e => (true, .error e)
    | .ok _ =>
      if env.downloadOk then
        (true, .ok { path := versionDir, updated := env.version = .Latest })
      else (true, .error ())

/-! ## Drive mounts (`crates/rutris_lib/src/prepare.rs`) -/

/-- What currently occupies `<prefix>/dosdevices/<drive>:`. -/
inductive Occupant where
  | vacant
  | file
  | symlink (target : String) (targetExists : Bool)
deriving DecidableEq, Repr

/-- `MountsError` cases relevant to one drive. -/
inductive MountErr where
  | read
  | rm
  | link
deriving DecidableEq, Repr

/-- What `CommandRunner::mounts` did for one drive. -/
inductive MountAction where
  | kept
  | replaced
  | created
deriving DecidableEq, Repr

/-- `Path::exists` follows symlinks: a dangling symlink reports `false`. -/
def occupantExists : Occupant → Bool
  | .vacant => false
  | .file => true
  | .symlink _ targetExists => targetExists

/-- One iteration of `CommandRunner::mounts` (`rutris_lib/src/prepare.rs`):
when `exists()` holds, `read_link` (failing with `Read` on a non-symlink),
keep a matching target, otherwise remove and recreate; when `exists()` is
false, `unix::fs::symlink` is attempted directly and fails with `Link` if the
path is still occupied (the dangling-symlink case). -/
def mountStep (occ : Occupant) (newTarget : String) : Except MountErr MountAction :=
  if occupantExists occ then
    match occ with
    | .symlink target _ =>
      if target = newTarget then .ok .kept
      else .ok .replaced
    | _ => .error .read
  else
    match occ with
    | .vacant => .ok .created
    | _ => .error .link

example : rustLines "a\nb\n" = ["a", "b"] := by decide
example : rustLines "" = [] := by decide
example : rustLines "a\n\nb" = ["a", "", "b"] := by decide
example : rustSplitWhitespace " X64  d3d9 " = ["X64", "d3d9"] := by decide
example : rustStripSuffix "nvcuda.dll.so" ".so" = "nvcuda.dll" := by decide
example : rustStripSuffix "d3d9" ".so" = "d3d9" := by decide
example : containsSub "GE-Proton".data "GE-Proton-8-26".data = true := by decide
example : sanitizeDirectoryName "a/b:c" = "abc" := by decide
example : overwriteFrom0 "abcdef" "XY" = "XYcdef" := by decide

/-- C1: the `.overrides` ledger is not append-only. `install_libraries` opens
the file with `write(true).create(true)` — no `append`, no `truncate` — so
the new entries are written over the start of the file. A first run that
installed Dxvk records four stems; a second run installing Vkd3dProton
overwrites the first sixteen bytes, destroying the entries `d3d10core` and
`d3d11` recorded by the first run, so the recorded set after run 2 is not a
superset of the set after run 1. -/
theorem installLibraries_second_run_destroys_entries :
    rustLines (installLibraries "" [Library.Dxvk]).file
      = ["d3d10core", "d3d11", "d3d9", "dxgi"] ∧
    rustLines (installLibraries (installLibraries "" [Library.Dxvk]).file
        [Library.Vkd3dProton]).file
      = ["d3d12", "d3d12core", "d3d9", "dxgi"] ∧
    "d3d10core" ∉ rustLines (installLibraries (installLibraries "" [Library.Dxvk]).file
        [Library.Vkd3dProton]).file := by
  decide

/-- C7: the `.winetricks` ledger is not append-only either. A first run
installs verb `corefonts` and records it; a second run that installs
`vcrun2019` opens the file with `write(true).create(true)` and overwrites it
from offset 0, so `corefonts` is no longer listed even though it was
requested in a past successful run. -/
theorem winetricksRun_second_run_destroys_verbs :
    (winetricksRun "" ["corefonts"]).ran = ["corefonts"] ∧
    rustLines (winetricksRun "" ["corefonts"]).file = ["corefonts"] ∧
    (winetricksRun (winetricksRun "" ["corefonts"]).file ["vcrun2019"]).ran
      = ["vcrun2019"] ∧
    "corefonts" ∉ rustLines (winetricksRun (winetricksRun "" ["corefonts"]).file
        ["vcrun2019"]).file := by
  decide

/-- C8: override application is idempotent across runs for an unchanged
Unit. Starting from an empty `.overrides`, a first launch installing Dxvk
computes the four stems as new, invokes the registry edit and records them;
a second launch with the same library computes an empty diff, performs no
registry edit, and leaves the file unchanged. -/
theorem installLibraries_dxvk_idempotent :
    (installLibraries "" [Library.Dxvk]).regInvoked = true ∧
    rustLines (installLibraries "" [Library.Dxvk]).file
      = ["d3d10core", "d3d11", "d3d9", "dxgi"] ∧
    (installLibraries (installLibraries "" [Library.Dxvk]).file
        [Library.Dxvk]).regInvoked = false ∧
    (installLibraries (installLibraries "" [Library.Dxvk]).file [Library.Dxvk]).file
      = (installLibraries "" [Library.Dxvk]).file := by
  decide

/-- C2 counterexample: the readers do not accept both `.overrides` formats.
The `brie_wine` reader, given the historical line `X64 d3d9`, still
classifies the stem `d3d9` as new; the `brie_lib` reader, given the
stem-only line `d3d9`, does not classify `(X64, d3d9)` as present. -/
theorem overridesReaders_crossFormat_not_accepted :
    ((OverridesW.ofFile "X64 d3d9").insert "d3d9").new = ["d3d9"] ∧
    overridesLContains (overridesLOfFile "d3d9") Arch.X64 "d3d9" = false := by
  decide

/-- C5 counterexample: an explicitly configured prefix is used verbatim; the
sanitization removing `/ \ : * ? " < > |` only applies to the name derived
from the human name or unit key, so a unit with prefix `a/b` launches with a
directory name containing `/`. -/
theorem computedPrefixName_explicit_unsanitized :
    computedPrefixName (some "a/b") none "key" = "a/b" ∧
    '/' ∈ ("a/b" : String).data := by
  decide

/-- C2 amended: each reader accepts only its own generation's format. The
`brie_wine` reader classifies a stem as present exactly when it occurs as a
full line of the file; the `brie_lib` reader classifies `(arch, stem)` as
present exactly when some line's first two whitespace tokens are that arch
and stem. A stem-only line parses to nothing for `brie_lib`, and a
historical two-token line is a single opaque entry for `brie_wine`. -/
theorem overridesReaders_own_format_characterization :
    (∀ file s, ((OverridesW.ofFile file).all.contains s = true ↔ s ∈ rustLines file)) ∧
    (∀ file a s, (overridesLContains (overridesLOfFile file) a s = true ↔
       ∃ line ∈ rustLines file, parseOverrideLine line = some (a, s))) ∧
    parseOverrideLine "d3d9" = none ∧
    parseOverrideLine "X64 d3d9" = some (Arch.X64, "d3d9") := by
  refine ⟨fun file s => ?_, fun file a s => ?_, by decide, by decide⟩
  · simp [OverridesW.ofFile, List.contains, List.elem_iff]
  · simp [overridesLContains, overridesLOfFile, List.contains, List.elem_iff,
      List.mem_filterMap]

/-- C5 amended: when the unit gives no prefix, the directory name is derived
from the human name, falling back to the unit key, and sanitized so that a
character survives exactly when it is not one of the nine illegal
characters, preserving the order of the remaining characters; an explicitly
given prefix is used verbatim, without sanitization. -/
theorem computedPrefixName_sanitization_spec :
    (∀ p hn key, computedPrefixName (some p) hn key = p) ∧
    (∀ hn key c, (c ∈ (computedPrefixName none hn key).data ↔
       c ∈ (hn.getD key).data ∧ illegalChars.contains c = false)) ∧
    (∀ hn key, (computedPrefixName none hn key).data.Sublist (hn.getD key).data) := by
  refine ⟨fun p hn key => rfl, fun hn key c => ?_, fun hn key => ?_⟩
  · simp [computedPrefixName, sanitizeDirectoryName, List.mem_filter]
  · exact List.filter_sublist (l := (hn.getD key).data)

/-- C3: for an `ensure` on an existing `latest` directory, the release
provider is contacted exactly when the stored freshness timestamp is missing
or older than 86,400 seconds; and when the contacted provider fails, the
call returns `Ok` with the existing cached path and `updated = false`
instead of propagating the error. -/
theorem ensureLibraryExists_latest_freshness (env : EnsureEnv)
    (hdir : env.dirExists = true) (hver : env.version = .Latest) :
    ((ensureLibraryExists env).1 = true ↔
       env.timeSince = none ∨ ∃ d, env.timeSince = some d ∧ 86400 < d) ∧
    (env.meta = .error () → (ensureLibraryExists env).1 = true →
       (ensureLibraryExists env).2 = .ok { path := "latest", updated := false }) := by
  obtain ⟨de, ver, ts, meta, rl, dl⟩ := env
  simp only at hdir hver
  subst hdir hver
  unfold ensureLibraryExists
  constructor
  · cases ts with
    | none =>
      cases meta with
      | error e => simp [staleB]
      | ok r =>
        cases rl with
        | error e => simp [staleB]
        | ok t => by_cases ht : t = r.version <;> simp [staleB, ht]
    | some d =>
      by_cases hd : 86400 < d
      · cases meta with
        | error e => simp [staleB, hd]
        | ok r =>
          cases rl with
          | error e => simp [staleB, hd]
          | ok t => by_cases ht : t = r.version <;> simp [staleB, hd, ht]
      · simp [staleB, hd]
  · intro hmeta
    simp only at hmeta
    subst hmeta
    cases ts with
    | none => simp [staleB, ReleaseVersion.toStr]
    | some d =>
      by_cases hd : 86400 < d
      · simp [staleB, hd, ReleaseVersion.toStr]
      · simp [staleB, hd]

/-- C3 witness: a concrete environment with an existing `latest` directory,
no stored timestamp, and a failing provider. -/
theorem ensureLibraryExists_latest_freshness_witness :
    (ensureLibraryExists ⟨true, .Latest, none, .error (), .error (), false⟩).1 = true ∧
    (ensureLibraryExists ⟨true, .Latest, none, .error (), .error (), false⟩).2 =
      .ok { path := "latest", updated := false } := by
  have h := ensureLibraryExists_latest_freshness
    ⟨true, .Latest, none, .error (), .error (), false⟩ rfl rfl
  exact ⟨h.1.mpr (Or.inl rfl), h.2 rfl (h.1.mpr (Or.inl rfl))⟩

/-- C9: when the cached `latest` entry exists, its freshness window has
elapsed, and the provider resolves a version different from the symlink
target, a download failure is only logged: the call still returns `Ok` with
the cached path and `updated = true`, so the caller refreshes the freshness
timestamp even though the update failed. -/
theorem ensureLibraryExists_failed_update_reports_updated (env : EnsureEnv)
    (hdir : env.dirExists = true) (hver : env.version = .Latest)
    (hstale : staleB env.timeSince = true) (r : Release) (hmeta : env.meta = .ok r)
    (t : String) (hlink : env.readLink = .ok t) (hne : t ≠ r.version)
    (_hdl : env.downloadOk = false) :
    ensureLibraryExists env = (true, .ok { path := "latest", updated := true }) := by
  unfold ensureLibraryExists
  rw [hdir, hver, hmeta, hlink, hstale]
  simp [hne, ReleaseVersion.toStr]

/-- C9 witness: stale timestamp, provider resolving `v2` while the symlink
still points at `v1`, and a failing download. -/
theorem ensureLibraryExists_failed_update_reports_updated_witness :
    ensureLibraryExists ⟨true, .Latest, some 90000, .ok ⟨"v2"⟩, .ok "v1", false⟩ =
      (true, .ok { path := "latest", updated := true }) :=
  ensureLibraryExists_failed_update_reports_updated
    ⟨true, .Latest, some 90000, .ok ⟨"v2"⟩, .ok "v1", false⟩
    rfl rfl (by decide) ⟨"v2"⟩ rfl "v1" rfl (by decide) rfl

/-- C4: failure atomicity of the cache directory. A `download_library` call
either returns `Ok` — and then the destination directory survives — or the
`DirGuard` has removed `libraries/<name>/<release.version>` by the time it
returns: the destination exists if and only if the call succeeded. -/
theorem downloadLibrary_dirGuard_atomicity (env : DownloadEnv) :
    ((downloadLibrary env).dest = none ∨ (downloadLibrary env).result = .ok ()) ∧
    ((downloadLibrary env).result = .ok () ↔ (downloadLibrary env).dest.isSome = true) := by
  obtain ⟨dr, sub, uuid, ver, sok⟩ := env
  unfold downloadLibrary
  cases dr with
  | error e => simp
  | ok listing =>
    cases hf : flattenStep listing sub uuid with
    | error e => simp [hf]
    | ok flattened =>
      cases ver with
      | Latest => by_cases h : sok <;> simp [hf, h]
      | Tag t => simp [hf]

/-- C10: the mounts step never repairs a dangling drive symlink — the
`exists()` check is false, so the old link is not removed and the new
`symlink` call fails with `MountsError::Link`; a symlink whose target exists
but differs from the requested one is removed and recreated, and a matching
one is kept. -/
theorem mountStep_dangling_not_repaired (target newTarget : String) :
    mountStep (.symlink target false) newTarget = .error .link ∧
    (target ≠ newTarget → mountStep (.symlink target true) newTarget = .ok .replaced) ∧
    mountStep (.symlink newTarget true) newTarget = .ok .kept := by
  refine ⟨by simp [mountStep, occupantExists], fun hne => ?_,
    by simp [mountStep, occupantExists]⟩
  simp [mountStep, occupantExists, hne]

/-- C10 witness: a dangling link at `a` and a replaced link `a → b`. -/
theorem mountStep_dangling_not_repaired_witness :
    mountStep (.symlink "a" false) "b" = .error .link ∧
    mountStep (.symlink "a" true) "b" = .ok .replaced :=
  ⟨(mountStep_dangling_not_repaired "a" "b").1,
   (mountStep_dangling_not_repaired "a" "b").2.1 (by decide)⟩

/-- C6: the single-wrapper check succeeds if and only if the fresh cache
directory holds exactly one entry, that entry is a directory, and its name
contains the library's substring. When it succeeds (and the fresh UUID does
not collide with a child's name), the flatten step replaces the listing by
the wrapper's children — so the wrapper directory is gone whenever no child
shares its name. For any other non-empty layout the listing is untouched,
and an empty directory is an error. -/
theorem flattenStep_spec (d : List Entry) (sub uuid : String) :
    ((∃ w, containsSingleDirectoryWithSubstring d sub = .ok (some w)) ↔
       (∃ w, d = [w] ∧ w.isDir = true ∧ containsSub sub.data w.name.data = true)) ∧
    (∀ w, d = [w] → w.isDir = true → containsSub sub.data w.name.data = true →
       uuid ∉ w.children.map Entry.name →
       flattenStep d sub uuid = .ok w.children) ∧
    (∀ w, d = [w] → w.isDir = true → containsSub sub.data w.name.data = true →
       uuid ∉ w.children.map Entry.name → w.name ∉ w.children.map Entry.name →
       ∀ l, flattenStep d sub uuid = .ok l → w.name ∉ l.map Entry.name) ∧
    (d ≠ [] → ¬(∃ w, d = [w] ∧ w.isDir = true ∧ containsSub sub.data w.name.data = true) →
       flattenStep d sub uuid = .ok d) ∧
    (d = [] → flattenStep d sub uuid = .error ()) := by
  have hmove : ∀ w : Entry, uuid ∉ w.children.map Entry.name →
      movePathsToParentDirectory [w] w uuid = w.children := by
    intro w hu
    have hchild : ∀ e ∈ w.children, (decide (e.name ≠ uuid)) = true := by
      intro e he
      simp only [decide_eq_true_eq]
      intro hname
      exact hu (hname ▸ List.mem_map_of_mem Entry.name he)
    simp [movePathsToParentDirectory, Entry.name, List.filter_append]
    intro e he hname
    exact hu (hname ▸ List.mem_map_of_mem Entry.name he)
  have hcheck : ∀ w : Entry, w.isDir = true → containsSub sub.data w.name.data = true →
      containsSingleDirectoryWithSubstring [w] sub = .ok (some w) := by
    intro w hdir hsub
    simp [containsSingleDirectoryWithSubstring, hdir, hsub]
  refine ⟨?_, ?_, ?_, ?_, ?_⟩
  · constructor
    · rintro ⟨w, hw⟩
      match d with
      | [] => simp [containsSingleDirectoryWithSubstring] at hw
      | e :: rest =>
        simp only [containsSingleDirectoryWithSubstring] at hw
        by_cases hdir : e.isDir = false
        · simp [hdir] at hw
        · rw [if_neg hdir] at hw
          by_cases hc : (containsSub sub.data e.name.data && rest.isEmpty) = true
          · rw [if_pos hc] at hw
            obtain ⟨hc1, hc2⟩ := Bool.and_eq_true_iff.mp hc
            simp only [Except.ok.injEq, Option.some.injEq] at hw
            subst hw
            exact ⟨e, by simp [List.isEmpty_iff.mp hc2],
              Bool.ne_false_iff.mp hdir, hc1⟩
          · rw [if_neg hc] at hw
            cases hw
    · rintro ⟨w, hd, hdir, hsub⟩
      exact ⟨w, hd ▸ hcheck w hdir hsub⟩
  · intro w hd hdir hsub hu
    subst hd
    simp [flattenStep, hcheck w hdir hsub, hmove w hu]
  · intro w hd hdir hsub hu hname l hl
    subst hd
    simp [flattenStep, hcheck w hdir hsub, hmove w hu] at hl
    subst hl
    exact hname
  · intro hne hnot
    match d with
    | [] => exact absurd rfl hne
    | e :: rest =>
      simp only [flattenStep, containsSingleDirectoryWithSubstring]
      by_cases hdir : e.isDir = false
      · simp [hdir]
      · rw [if_neg hdir]
        by_cases hc : (containsSub sub.data e.name.data && rest.isEmpty) = true
        · obtain ⟨hc1, hc2⟩ := Bool.and_eq_true_iff.mp hc
          exact absurd ⟨e, by simp [List.isEmpty_iff.mp hc2],
            Bool.ne_false_iff.mp hdir, hc1⟩ hnot
        · rw [if_neg hc]
  · intro hd
    subst hd
    simp [flattenStep, containsSingleDirectoryWithSubstring]

/-- C6 witness: the S4 scenario — a single wrapper `GE-Proton-8-26`
containing `bin` is flattened away, leaving only `bin`. -/
theorem flattenStep_spec_witness :
    flattenStep [Entry.mk "GE-Proton-8-26" true [Entry.mk "bin" true []]]
      "GE-Proton" "3ad2a2c1" = .ok [Entry.mk "bin" true []] :=
  (flattenStep_spec [Entry.mk "GE-Proton-8-26" true [Entry.mk "bin" true []]]
    "GE-Proton" "3ad2a2c1").2.1
    (Entry.mk "GE-Proton-8-26" true [Entry.mk "bin" true []])
    rfl rfl (by decide) (by simp [Entry.name, Entry.children])
